import Mathlib

/-!
Verification of the sentimeter crawler subsystem.

Shallow embedding of the crawler pipeline (deduplicator, fetcher,
rate limiter, markup parser, orchestrator) translated from the
TypeScript sources, together with theorems settling the frozen claims.

Host-environment behaviour (the HTTP transport, the cheerio DOM,
the JS `Date` string parser, the SHA-256 hasher, the wall clock) is
abstracted as explicit oracle parameters; everything written in the
repository itself is embedded as executable Lean definitions.
-/

/-- JS `\s` character class (ECMA-262 WhiteSpace ∪ LineTerminator). -/
def isJsWhitespace (c : Char) : Bool :=
  let n := c.toNat
  if (9 ≤ n ∧ n ≤ 13) ∨ n = 32 ∨ n = 160 ∨ n = 5760 ∨ (8192 ≤ n ∧ n ≤ 8202) ∨
     n = 8232 ∨ n = 8233 ∨ n = 8239 ∨ n = 8287 ∨ n = 12288 ∨ n = 65279
  then true else false

/-- One pass of JS `replace(/\s+/g, " ")`: every maximal run of whitespace
becomes a single ASCII space.  The boolean records whether the previous
character was part of a whitespace run. -/
def collapseWsAux : Bool → List Char → List Char
  | _, [] => []
  | prevWs, c :: cs =>
    if isJsWhitespace c then
      if prevWs then collapseWsAux true cs else ' ' :: collapseWsAux true cs
    else c :: collapseWsAux false cs

/-- JS `String.prototype.trim`: drop whitespace from both ends. -/
def trimChars (l : List Char) : List Char :=
  ((l.dropWhile isJsWhitespace).reverse.dropWhile isJsWhitespace).reverse

/-- JS `trim` on strings. -/
def jsTrim (s : String) : String :=
  String.mk (trimChars s.data)

/-- JS `toLowerCase`, accurate on the ASCII range the configs use. -/
def toLowerString (s : String) : String :=
  String.mk (s.data.map Char.toLower)

/-- JS `String.prototype.startsWith`. -/
def jsStartsWith (s pre : String) : Bool :=
  pre.data.isPrefixOf s.data

/-- The quote replacement of `normalizeText`.  The regex class on
deduplicator.ts line 53 holds only the ASCII straight double quote
(U+0022, listed twice) and the ASCII straight single quote (U+0027,
listed twice), so a straight apostrophe becomes a straight double quote;
curly quote characters are not in the class and pass through unchanged. -/
def normalizeQuoteChar (c : Char) : Char :=
  if c.toNat = 34 ∨ c.toNat = 39 then '"' else c

/-- `replace(/[–—]/g, "-")` from `normalizeText`:
en dash and em dash become a hyphen. -/
def normalizeDashChar (c : Char) : Char :=
  if c.toNat = 8211 ∨ c.toNat = 8212 then '-' else c

/-- `normalizeText` from deduplicator.ts: lowercase, collapse whitespace
runs to one space, unify the straight quote characters into the double
quote, unify dash variants, trim. -/
def normalizeText (s : String) : String :=
  String.mk (trimChars (((collapseWsAux false (s.data.map Char.toLower)).map
    normalizeQuoteChar).map normalizeDashChar))

/-- `content ? normalizeText(content) : ""` followed by `.slice(0, 500)`
from `generateContentHash`. -/
def contentSampleOf (content : Option String) : String :=
  match content with
  | some c => String.mk ((normalizeText c).data.take 500)
  | none => ""

/-- The `combined` string hashed by `generateContentHash`:
normalized title, a pipe separator, and the 500-character body sample. -/
def contentKey (title : String) (content : Option String) : String :=
  normalizeText title ++ "|" ++ contentSampleOf content

/-- `generateContentHash` from deduplicator.ts.  The SHA-256 hasher supplied
by the Bun runtime is abstracted as the `hasher` oracle. -/
def generateContentHash (hasher : String → String) (title : String)
    (content : Option String) : String :=
  hasher (contentKey title content)

example : normalizeText ("Bank  BCA") = "bank bca" := by decide
example : normalizeText ("bank bca") = "bank bca" := by decide
example : contentKey ("x|y") (some ("z")) = contentKey ("x") (some ("y|z")) := by decide

/-! ## Resilient fetcher (fetcher.ts) -/

/-- Failure classes a single fetch attempt can raise inside the `try` block
of `fetchWithRetry`: a non-2xx response (`HTTP_ERROR` with its status),
an aborted request (`TIMEOUT`), or any other thrown error. -/
inductive FetchFailure where
  | httpError (status : Nat)
  | timeout
  | networkError (msg : String)
deriving DecidableEq

/-- The `error.message` carried by a `FetchError` / rethrown error.
The response's human-readable status text is host data and is omitted. -/
def failureMessage : FetchFailure → String
  | FetchFailure.httpError s => "[HTTP_ERROR] HTTP " ++ toString s
  | FetchFailure.timeout => "[TIMEOUT] Request timed out"
  | FetchFailure.networkError m => m

/-- The terminal-error test of `fetchWithRetry`: 4xx statuses other than
429 are never retried. -/
def isTerminalFailure : FetchFailure → Bool
  | FetchFailure.httpError s => if 400 ≤ s ∧ s < 500 ∧ s ≠ 429 then true else false
  | _ => false

/-- A failure is retryable when the attempt did not succeed and the
failure is not terminal. -/
def retryableAttempt (outcome : Nat → Except FetchFailure String) (i : Nat) : Bool :=
  match outcome i with
  | Except.ok _ => false
  | Except.error e => !isTerminalFailure e

/-- The retry loop of `fetchWithRetry`.  `outcome i` is the transport's
result for attempt number `i` (0-based); `remaining` counts the retries
still allowed, so the initial call passes `remaining = retries`.
Returns the final result, the number of attempts performed, and the list
of back-off sleeps (in ms) executed between attempts, in order.
On the last allowed attempt a failure is surfaced directly, which agrees
with the source where the terminal-error `throw` and falling out of the
loop with `lastError` produce the same exception. -/
def fetchGo (outcome : Nat → Except FetchFailure String) (delayMs attempt : Nat) :
    Nat → Except FetchFailure String × Nat × List Nat
  | 0 => (outcome attempt, attempt + 1, [])
  | remaining + 1 =>
    match outcome attempt with
    | Except.ok body => (Except.ok body, attempt + 1, [])
    | Except.error e =>
      if isTerminalFailure e then (Except.error e, attempt + 1, [])
      else
        let r := fetchGo outcome delayMs (attempt + 1) remaining
        (r.1, r.2.1, delayMs * (attempt + 1) :: r.2.2)

/-- Default `retries` from DEFAULT_FETCH_OPTIONS. -/
def DEFAULT_RETRIES : Nat := 2

/-- Default `retryDelayMs` from DEFAULT_FETCH_OPTIONS. -/
def DEFAULT_RETRY_DELAY_MS : Nat := 1000

/-- `fetchWithRetry` from fetcher.ts, instrumented with the attempt count
and the back-off sleeps performed. -/
def fetchWithRetry (outcome : Nat → Except FetchFailure String)
    (retries delayMs : Nat) : Except FetchFailure String × Nat × List Nat :=
  fetchGo outcome delayMs 0 retries

example :
    fetchWithRetry (fun _ => Except.error (FetchFailure.httpError 404)) 2 1000
      = (Except.error (FetchFailure.httpError 404), 1, []) := rfl
example :
    fetchWithRetry (fun _ => Except.error (FetchFailure.httpError 503)) 2 1000
      = (Except.error (FetchFailure.httpError 503), 3, [1000, 2000]) := rfl
example :
    fetchWithRetry (fun i => if i = 0 then Except.error (FetchFailure.timeout)
      else Except.ok ("body")) 2 1000
      = (Except.ok ("body"), 2, [1000]) := rfl

/-! ## Domain rate limiter (fetcher.ts, `RateLimiter`) -/

/-- Association-list lookup, the model of `Map.get` (and of the month
table lookup in the parser): the most recent binding for a key wins. -/
def assocLookup (k : String) : List (String × Nat) → Option Nat
  | [] => none
  | (k2, v) :: rest => if k2 = k then some v else assocLookup k rest

/-- State of a `RateLimiter` instance together with the wall clock:
`lastRequestTime` models the `Map<string, number>`, `now` the value of
`Date.now()` in milliseconds.  `Map.set` is modelled by consing a fresh
binding, which `assocLookup` prefers. -/
structure RLState where
  lastRequestTime : List (String × Nat)
  now : Nat
deriving DecidableEq

/-- `RateLimiter.waitForDomain` from fetcher.ts.  `await sleep(ms)` is
modelled as advancing the clock by exactly the requested amount (the
host guarantees at least that much).  Returns the state after the call
(clock advanced, dispatch time recorded) and the milliseconds slept. -/
def waitForDomain (s : RLState) (domain : String) (delay : Nat) : RLState × Nat :=
  let lastTime := (assocLookup domain s.lastRequestTime).getD 0
  let elapsed := s.now - lastTime
  let slept := if elapsed < delay then delay - elapsed else 0
  let newNow := s.now + slept
  ({ lastRequestTime := (domain, newNow) :: s.lastRequestTime, now := newNow }, slept)

example :
    waitForDomain { lastRequestTime := [("example.com", 100)], now := 110 }
      ("example.com") 50
      = ({ lastRequestTime := [("example.com", 150), ("example.com", 100)],
           now := 150 }, 40) := by decide
example :
    (waitForDomain { lastRequestTime := [], now := 5000 } ("example.com") 1500).2
      = 0 := by decide

/-! ## Markup parser: listing links (parser.ts) -/

/-- `NewsPortalConfig` from types.ts (the `dateFormat` field is unused by
the embedded code paths and omitted). -/
structure NewsPortalConfig where
  name : String
  baseUrl : String
  articleLinkSelector : String
  titleSelector : String
  contentSelector : String
  dateSelector : Option String
  removeSelectors : List String
  delayMs : Option Nat
deriving DecidableEq

/-- Substring test on character lists: JS `String.prototype.includes`. -/
def hasSub (hay sub : List Char) : Bool :=
  if sub.isPrefixOf hay then true
  else match hay with
    | [] => false
    | _ :: t => hasSub t sub

/-- JS `includes` on strings. -/
def containsSub (s sub : String) : Bool :=
  hasSub s.data sub.data

/-- Remove the first occurrence of `sub`: JS `String.prototype.replace`
with a plain-string pattern and empty replacement. -/
def removeFirstSub (sub : List Char) : List Char → List Char
  | [] => []
  | c :: cs =>
    if sub.isPrefixOf (c :: cs) then (c :: cs).drop sub.length
    else c :: removeFirstSub sub cs

/-- Split a character list at the first occurrence of `sub`, returning
the parts before and after it. -/
def splitOnSub (sub : List Char) : List Char → Option (List Char × List Char)
  | [] => if sub = ([] : List Char) then some ([], []) else none
  | c :: cs =>
    if sub.isPrefixOf (c :: cs) then some ([], (c :: cs).drop sub.length)
    else match splitOnSub sub cs with
      | some (pre, post) => some (c :: pre, post)
      | none => none

/-- The characters of the `://` scheme delimiter. -/
def schemeDelim : List Char := [':', '/', '/']

/-- Whether a string begins with a URL scheme (`[A-Za-z][A-Za-z0-9+.-]*:`),
so that the WHATWG `URL` constructor accepts it as absolute. -/
def hasUrlScheme (cs : List Char) : Bool :=
  match cs with
  | [] => false
  | c :: rest =>
    c.isAlpha &&
      ((rest.dropWhile (fun d => d.isAlphanum ∨ d = '+' ∨ d = '-' ∨ d = '.')).head?
        == some ':')

/-- The authority part of what follows `://`: everything up to the first
path, query or fragment delimiter. -/
def hostPartOf (rest : List Char) : List Char :=
  rest.takeWhile (fun c => c ≠ '/' ∧ c ≠ '?' ∧ c ≠ '#')

/-- Model of `new URL(url).hostname` for the URL shapes the crawler meets:
the authority of a `scheme://` URL without its port, lowercased; the empty
hostname for opaque-path URLs such as `javascript:`; `none` when the
constructor would throw (no scheme at all). -/
def jsUrlHostname (url : String) : Option String :=
  match splitOnSub schemeDelim url.data with
  | some (_, rest) =>
    some (String.mk (((hostPartOf rest).takeWhile (fun c => c ≠ ':')).map Char.toLower))
  | none => if hasUrlScheme url.data then some ("") else none

example : jsUrlHostname ("https://WWW.Example.com:8080/x?q=1") = some ("www.example.com") := by decide
example : jsUrlHostname ("javascript:void(0)") = some ("") := by decide
example : jsUrlHostname ("/read/123") = none := by decide

/-- Drop the final path segment, keeping the trailing slash; the base
directory used when resolving a relative reference.  An empty or
slash-free base path resolves from the root. -/
def dirOfPath (path : List Char) : List Char :=
  let d := (path.reverse.dropWhile (fun c => c ≠ '/')).reverse
  if d = ([] : List Char) then ['/'] else d

/-- Model of `new URL(href, baseUrl).toString()` for the reference shapes
the listings produce: absolute references with a scheme pass through,
`//`-references adopt the base scheme, root-relative references adopt the
base origin, other references resolve against the base directory.
Dot-segment normalization and query/fragment merging are not modelled.
`none` models the constructor throwing (invalid base). -/
def jsResolveRelative (href baseUrl : String) : Option String :=
  match splitOnSub schemeDelim baseUrl.data with
  | none => none
  | some (scheme, rest) =>
    let authority := hostPartOf rest
    let path := rest.drop authority.length
    if hasUrlScheme href.data then some href
    else if href.data.take 2 = ['/', '/'] then some (String.mk scheme ++ ":" ++ href)
    else if jsStartsWith href ("/") then
      some (String.mk scheme ++ "://" ++ String.mk authority ++ href)
    else if href = "" then some baseUrl
    else some (String.mk scheme ++ "://" ++ String.mk authority ++
      String.mk (dirOfPath path) ++ href)

/-- `resolveUrl` from parser.ts: hrefs that start with `http` are passed
through unchanged, everything else goes through the URL constructor. -/
def resolveUrl (href baseUrl : String) : Option String :=
  if jsStartsWith href ("http") then some href
  else jsResolveRelative href baseUrl

/-- The `skipPatterns` list of `isValidArticleUrl`. -/
def skipPatterns : List String :=
  ["/tag/", "/tags/", "/category/", "/kategori/", "/author/", "/penulis/",
   "/page/", "/search", "/login", "/register", "#", "javascript:"]

/-- `isValidArticleUrl` from parser.ts: reject known non-article URL
patterns, then require the URL's hostname to contain the config's base
hostname with a leading `www.` removed (first occurrence, as JS
`String.replace` with a string pattern does).  A URL the constructor
rejects is invalid, as is one whose base URL is unparsable. -/
def isValidArticleUrl (url : String) (config : NewsPortalConfig) : Bool :=
  let lowercaseUrl := toLowerString url
  if skipPatterns.any (fun p => containsSub lowercaseUrl p) then false
  else
    match jsUrlHostname url, jsUrlHostname config.baseUrl with
    | some urlDomain, some baseDomain =>
      containsSub urlDomain (String.mk (removeFirstSub ("www.").data baseDomain.data))
    | _, _ => false

/-- The `each` loop of `parseArticleLinks`.  Each element of `anchors` is
the `href` attribute (if any) of one element matched by the config's
link selector, in document order; `seen` is the de-duplication set. -/
def linksLoop (config : NewsPortalConfig) : List (Option String) → List String → List String
  | [], _ => []
  | anchor :: rest, seen =>
    match anchor with
    | none => linksLoop config rest seen
    | some href =>
      match resolveUrl href config.baseUrl with
      | none => linksLoop config rest seen
      | some fullUrl =>
        if fullUrl ∈ seen then linksLoop config rest seen
        else if isValidArticleUrl fullUrl config then
          fullUrl :: linksLoop config rest (fullUrl :: seen)
        else linksLoop config rest seen

/-- `parseArticleLinks` from parser.ts, with the cheerio selector match
abstracted into the pre-extracted `anchors` list. -/
def parseArticleLinks (anchors : List (Option String)) (config : NewsPortalConfig) :
    List String :=
  linksLoop config anchors []

/-- The listing candidates in document order: every anchor's href resolved
against the base URL, before de-duplication and filtering. -/
def resolvedCandidates (anchors : List (Option String)) (config : NewsPortalConfig) :
    List String :=
  anchors.filterMap (fun a => Option.bind a (fun h => resolveUrl h config.baseUrl))

/-- A demonstration config used by concrete witnesses. -/
def demoConfig : NewsPortalConfig :=
  { name := "Demo", baseUrl := "https://example.com/", articleLinkSelector := "a",
    titleSelector := "h1", contentSelector := "div", dateSelector := none,
    removeSelectors := [], delayMs := none }

example :
    parseArticleLinks
      [some ("/read/123"), some ("/tag/finance"), some ("/category/x"),
       some ("#top"), some ("/read/123"), none] demoConfig
      = ["https://example.com/read/123"] := by decide

/-! ## Markup parser: article pages (parser.ts) -/

/-- A JS `Date` value as the parser can produce it: either the local-time
`new Date(year, monthIndex, day)` constructor or a millisecond epoch value
obtained from the string parser. -/
inductive JsDate where
  | ymd (year month day : Nat)
  | fromMs (ms : Int)
deriving DecidableEq

/-- The cheerio document for one article page, viewed after the config's
`removeSelectors` have been removed.  Each field models one of the
selector queries the parser performs: the rendered text of the first
element matching a selector (empty when nothing matches), the texts of
the `p` descendants of that first element, whether the selection is
nonempty, its `datetime` attribute, and the host's `new Date(string)`
parser (`none` models an invalid date). -/
structure Doc where
  selText : String → String
  selParagraphs : String → List String
  selExists : String → Bool
  selDatetimeAttr : String → Option String
  jsDateParse : String → Option Int

/-- `RawArticle` from types.ts. -/
structure RawArticle where
  url : String
  title : String
  content : Option String
  publishedAt : Option JsDate
  portal : String
deriving DecidableEq

/-- JS `String.prototype.split(",")` on the character list: split at every
comma; an input without commas yields a single piece. -/
def splitCommaAux : List Char → List Char → List (List Char)
  | [], acc => [acc.reverse]
  | c :: cs, acc =>
    if c = ',' then acc.reverse :: splitCommaAux cs []
    else splitCommaAux cs (c :: acc)

/-- `selector.split(",").map((s) => s.trim())`, shared by the title,
content and date extractors. -/
def selectorList (selector : String) : List String :=
  (splitCommaAux selector.data []).map (fun l => jsTrim (String.mk l))

/-- `cleanText` from parser.ts: collapse whitespace runs to one space and
trim.  (The source's second replacement, collapsing blank lines, is the
identity here because the first replacement already removed every
newline.) -/
def cleanText (text : String) : String :=
  jsTrim (String.mk (collapseWsAux false text.data))

/-- The title-selector fallback loop of `extractTitle`: first selector
whose rendered trimmed text is non-empty and longer than 10 characters. -/
def extractTitleGo (doc : Doc) : List String → Option String
  | [] => none
  | sel :: rest =>
    let text := jsTrim (doc.selText sel)
    if text ≠ "" ∧ 10 < text.length then some (cleanText text)
    else extractTitleGo doc rest

/-- `extractTitle` from parser.ts. -/
def extractTitle (doc : Doc) (selector : String) : Option String :=
  extractTitleGo doc (selectorList selector)

/-- `paragraphs.join(sep)` from JS: pieces interleaved with `sep`. -/
def joinWithSep (sep : String) : List String → String
  | [] => ""
  | x :: xs => xs.foldl (fun acc s => acc ++ sep ++ s) x

/-- The trimmed paragraph texts longer than 20 characters collected by
`extractContent` for one selector. -/
def qualifyingParagraphs (doc : Doc) (sel : String) : List String :=
  (doc.selParagraphs sel).filterMap (fun p =>
    let t := jsTrim p
    if t ≠ "" ∧ 20 < t.length then some t else none)

/-- The content-selector fallback loop of `extractContent`: paragraphs
joined by blank lines, else the container's full text when longer than
50 characters, else the next selector. -/
def extractContentGo (doc : Doc) : List String → Option String
  | [] => none
  | sel :: rest =>
    if doc.selExists sel = false then extractContentGo doc rest
    else
      let ps := qualifyingParagraphs doc sel
      if ps ≠ [] then some (cleanText (joinWithSep ("\n\n") ps))
      else
        let fullText := jsTrim (doc.selText sel)
        if fullText ≠ "" ∧ 50 < fullText.length then some (cleanText fullText)
        else extractContentGo doc rest

/-- `extractContent` from parser.ts. -/
def extractContent (doc : Doc) (selector : String) : Option String :=
  extractContentGo doc (selectorList selector)

/-- The Indonesian month-name table of `parseIndonesianDate`
(JS month indexes, 0-based). -/
def monthsTable : List (String × Nat) :=
  [("januari", 0), ("jan", 0), ("februari", 1), ("feb", 1), ("maret", 2),
   ("mar", 2), ("april", 3), ("apr", 3), ("mei", 4), ("may", 4), ("juni", 5),
   ("jun", 5), ("juli", 6), ("jul", 6), ("agustus", 7), ("agu", 7), ("aug", 7),
   ("september", 8), ("sep", 8), ("oktober", 9), ("okt", 9), ("oct", 9),
   ("november", 10), ("nov", 10), ("desember", 11), ("des", 11), ("dec", 11)]

/-- JS `\w` character class. -/
def isJsWordChar (c : Char) : Bool :=
  c.isAlphanum || c = '_'

/-- Numeric value of a digit run, as `parseInt` reads it. -/
def natOfDigits (l : List Char) : Nat :=
  l.foldl (fun n c => n * 10 + (c.toNat - 48)) 0

/-- Match of `/(\d{1,2})\s+(\w+)\s+(\d{4})/` anchored at the head of the
list.  Because the digit, whitespace and word classes are disjoint, each
quantified group must take a maximal run, so the regex engine's
backtracking is not needed: the day run may be 1 or 2 digits long, the
word run is maximal, and the year takes the first 4 of at least 4
digits.  Returns (day digits value, month word, year value). -/
def matchDateAt (cs : List Char) : Option (Nat × String × Nat) :=
  let ds := cs.takeWhile Char.isDigit
  if ds.length = 0 ∨ 2 < ds.length then none
  else
    let r1 := cs.drop ds.length
    let ws1 := r1.takeWhile isJsWhitespace
    if ws1.length = 0 then none
    else
      let r2 := r1.drop ws1.length
      let w := r2.takeWhile isJsWordChar
      if w.length = 0 then none
      else
        let r3 := r2.drop w.length
        let ws2 := r3.takeWhile isJsWhitespace
        if ws2.length = 0 then none
        else
          let r4 := r3.drop ws2.length
          let ys := r4.takeWhile Char.isDigit
          if ys.length < 4 then none
          else some (natOfDigits ds, String.mk w, natOfDigits (ys.take 4))

/-- Leftmost match of the `day month year` pattern: JS `String.match`. -/
def findDateMatch : List Char → Option (Nat × String × Nat)
  | [] => none
  | c :: cs =>
    match matchDateAt (c :: cs) with
    | some r => some r
    | none => findDateMatch cs

/-- Match of `/\d{4}-\d{2}-\d{2}/` anchored at the head of the list. -/
def matchIsoAt (cs : List Char) : Option String :=
  match cs with
  | y1 :: y2 :: y3 :: y4 :: h1 :: m1 :: m2 :: h2 :: d1 :: d2 :: _ =>
    if y1.isDigit ∧ y2.isDigit ∧ y3.isDigit ∧ y4.isDigit ∧ h1 = '-' ∧
       m1.isDigit ∧ m2.isDigit ∧ h2 = '-' ∧ d1.isDigit ∧ d2.isDigit
    then some (String.mk [y1, y2, y3, y4, h1, m1, m2, h2, d1, d2]) else none
  | _ => none

/-- Leftmost match of the bare ISO date pattern. -/
def findIsoMatch : List Char → Option String
  | [] => none
  | c :: cs =>
    match matchIsoAt (c :: cs) with
    | some r => some r
    | none => findIsoMatch cs

/-- `parseIndonesianDate` from parser.ts: the localized `day month year`
pattern with validated month name, day and year, falling back to a bare
ISO `YYYY-MM-DD` substring handed to the host date parser. -/
def parseIndonesianDate (jsDateParse : String → Option Int) (text : String) :
    Option JsDate :=
  let tryIso : Option JsDate :=
    match findIsoMatch text.data with
    | some isoStr =>
      match jsDateParse isoStr with
      | some ms => some (JsDate.fromMs ms)
      | none => none
    | none => none
  match findDateMatch text.data with
  | some (day, monthStr, year) =>
    match assocLookup (toLowerString monthStr) monthsTable with
    | some month =>
      if 0 < day ∧ 2000 < year then some (JsDate.ymd year month day) else tryIso
    | none => tryIso
  | none => tryIso

/-- The per-selector body of `extractDate`: a truthy, parseable `datetime`
attribute wins; otherwise the element's trimmed text goes through
`parseIndonesianDate`. -/
def dateFromSelector (doc : Doc) (sel : String) : Option JsDate :=
  let fromAttr : Option JsDate :=
    match doc.selDatetimeAttr sel with
    | some dt =>
      if dt ≠ "" then
        match doc.jsDateParse dt with
        | some ms => some (JsDate.fromMs ms)
        | none => none
      else none
    | none => none
  match fromAttr with
  | some d => some d
  | none =>
    let text := jsTrim (doc.selText sel)
    if text ≠ "" then parseIndonesianDate doc.jsDateParse text else none

/-- The date-selector fallback loop of `extractDate`. -/
def extractDateGo (doc : Doc) : List String → Option JsDate
  | [] => none
  | sel :: rest =>
    match dateFromSelector doc sel with
    | some d => some d
    | none => extractDateGo doc rest

/-- `extractDate` from parser.ts; an absent `dateSelector` yields null. -/
def extractDate (doc : Doc) (selector : Option String) : Option JsDate :=
  match selector with
  | none => none
  | some sel => extractDateGo doc (selectorList sel)

/-- `parseArticle` from parser.ts.  `doc` is the loaded document after the
config's `removeSelectors` have been stripped; the parse fails exactly
when no title is found, while a missing body or date yields a null
field. -/
def parseArticle (doc : Doc) (url : String) (config : NewsPortalConfig) :
    Option RawArticle :=
  match extractTitle doc config.titleSelector with
  | none => none
  | some title =>
    some { url := url, title := title,
           content := extractContent doc config.contentSelector,
           publishedAt := extractDate doc config.dateSelector,
           portal := config.name }

example :
    parseIndonesianDate (fun _ => none) ("Senin, 03 Feb 2025 10:30 WIB")
      = some (JsDate.ymd 2025 1 3) := by decide
example :
    parseIndonesianDate (fun s => if s = "2025-02-03" then some 1738540800000 else none)
      ("updated 2025-02-03 10:30") = some (JsDate.fromMs 1738540800000) := by decide

example :
    extractTitle
      { selText := fun sel => if sel = "h2" then ("  A headline long enough  ") else (""),
        selParagraphs := fun _ => [], selExists := fun _ => false,
        selDatetimeAttr := fun _ => none, jsDateParse := fun _ => none }
      ("h1, h2") = some ("A headline long enough") := by decide

/-! ## Crawl orchestrator (orchestrator module) -/

/-- `MAX_ARTICLES_PER_PORTAL` from the orchestrator. -/
def MAX_ARTICLES_PER_PORTAL : Nat := 15

/-- `MAX_CONCURRENT_PORTALS` from the orchestrator. -/
def MAX_CONCURRENT_PORTALS : Nat := 3

/-- `CrawlResult` from types.ts. -/
structure CrawlResult where
  portal : String
  success : Bool
  articlesFound : Nat
  articlesCrawled : Nat
  newArticles : Nat
  errors : List String
  durationMs : Nat
deriving DecidableEq

/-- `CrawlSummary` from types.ts. -/
structure CrawlSummary where
  totalPortals : Nat
  successfulPortals : Nat
  failedPortals : Nat
  totalArticlesFound : Nat
  totalNewArticles : Nat
  totalDurationMs : Nat
  results : List CrawlResult
deriving DecidableEq

/-- The mutable locals of `crawlPortal`'s per-article loop, instrumented
with the URLs visited by the loop and the articles handed to the store. -/
structure LoopState where
  articlesCrawled : Nat
  newArticles : Nat
  errors : List String
  visited : List String
  saved : List RawArticle
deriving DecidableEq

/-- The loop state at the top of `crawlPortal`. -/
def initialLoopState : LoopState :=
  { articlesCrawled := 0, newArticles := 0, errors := [], visited := [], saved := [] }

/-- The world one portal's crawl runs against: its config, the transport's
per-attempt outcomes for the listing URL and for each article URL, the
cheerio views of fetched markup (link-selector anchors of a listing,
loaded document of an article page), the store's duplicate lookup and
insert (an insert error models a thrown database exception), and the
host hash function.  Logging and rate-limiter waits affect no result
field and are not modelled. -/
structure CrawlEnv where
  config : NewsPortalConfig
  listingOutcome : Nat → Except FetchFailure String
  articleOutcome : String → Nat → Except FetchFailure String
  anchorsOf : String → List (Option String)
  docOf : String → Doc
  isDup : String → Bool
  insertResult : RawArticle → Except String Unit
  hashFn : String → String

/-- One iteration of `crawlPortal`'s article loop: rate-limit (no effect
on the result), fetch with retries (a failure is caught and recorded),
parse (a null article or empty title is skipped silently), count the
crawl, skip duplicates, insert and count new articles (an insert throw is
caught and recorded). -/
def processArticle (env : CrawlEnv) (st : LoopState) (url : String) : LoopState :=
  let st0 := { st with visited := st.visited ++ [url] }
  match (fetchWithRetry (env.articleOutcome url) DEFAULT_RETRIES DEFAULT_RETRY_DELAY_MS).1 with
  | Except.error e =>
    { st0 with errors := st0.errors ++ ["Article error (" ++ url ++ "): " ++ failureMessage e] }
  | Except.ok html =>
    match parseArticle (env.docOf html) url env.config with
    | none => st0
    | some article =>
      if article.title = "" then st0
      else
        let st1 := { st0 with articlesCrawled := st0.articlesCrawled + 1 }
        let h := generateContentHash env.hashFn article.title article.content
        if env.isDup h then st1
        else
          match env.insertResult article with
          | Except.ok _ =>
            { st1 with newArticles := st1.newArticles + 1, saved := st1.saved ++ [article] }
          | Except.error msg =>
            { st1 with errors := st1.errors ++ ["Article error (" ++ url ++ "): " ++ msg] }

/-- `crawlPortal` from the orchestrator.  A listing-fetch failure is the
only way into the outer catch, which finalizes a failed result; otherwise
the first `MAX_ARTICLES_PER_PORTAL` extracted links are processed in
order and a successful result is finalized.  The wall-clock duration is
not modelled (0).  Also returns the final loop state
(visited URLs, stored articles) for the invariants. -/
def crawlPortal (env : CrawlEnv) : CrawlResult × LoopState :=
  match (fetchWithRetry env.listingOutcome DEFAULT_RETRIES DEFAULT_RETRY_DELAY_MS).1 with
  | Except.error e =>
    ({ portal := env.config.name, success := false, articlesFound := 0,
       articlesCrawled := 0, newArticles := 0,
       errors := ["Portal error: " ++ failureMessage e], durationMs := 0 },
     initialLoopState)
  | Except.ok listingHtml =>
    let articleUrls := parseArticleLinks (env.anchorsOf listingHtml) env.config
    let urlsToProcess := articleUrls.take MAX_ARTICLES_PER_PORTAL
    let final := urlsToProcess.foldl (processArticle env) initialLoopState
    ({ portal := env.config.name, success := true, articlesFound := articleUrls.length,
       articlesCrawled := final.articlesCrawled, newArticles := final.newArticles,
       errors := final.errors, durationMs := 0 },
     final)

/-- `chunkArray` from the orchestrator, for a positive chunk size. -/
def chunkArray (size : Nat) : List CrawlEnv → List (List CrawlEnv)
  | [] => []
  | x :: xs => (x :: xs.take (size - 1)) :: chunkArray size (xs.drop (size - 1))
termination_by l => l.length
decreasing_by
  simp only [List.length_cons, List.length_drop]
  omega

/-- `crawlAllPortals` from the orchestrator: crawl the sources in batches
of `MAX_CONCURRENT_PORTALS`, collect every per-source result in
configuration order, and aggregate the summary.  Each configured source
is one `CrawlEnv`. -/
def crawlAllPortals (envs : List CrawlEnv) : CrawlSummary :=
  let results :=
    ((chunkArray MAX_CONCURRENT_PORTALS envs).map
      (fun batch => batch.map (fun e => (crawlPortal e).1))).flatten
  let successfulPortals := (results.filter (fun r => r.success)).length
  { totalPortals := envs.length,
    successfulPortals := successfulPortals,
    failedPortals := envs.length - successfulPortals,
    totalArticlesFound := results.foldl (fun sum r => sum + r.articlesFound) 0,
    totalNewArticles := results.foldl (fun sum r => sum + r.newArticles) 0,
    totalDurationMs := 0,
    results := results }

/-- A document in which no selector yields a title: every query renders
empty text. -/
def docNoTitle : Doc :=
  { selText := fun _ => "", selParagraphs := fun _ => [],
    selExists := fun _ => false, selDatetimeAttr := fun _ => none,
    jsDateParse := fun _ => none }

/-- A document whose `h1` renders a usable title and whose `div` holds one
long paragraph. -/
def docWithTitle : Doc :=
  { selText := fun sel => if sel = "h1" then ("Bank BCA cetak laba besar") else (""),
    selParagraphs := fun sel =>
      if sel = "div" then ["Laba bersih naik signifikan pada kuartal ini."] else [],
    selExists := fun sel => sel = "div",
    selDatetimeAttr := fun _ => none, jsDateParse := fun _ => none }

/-- A crawl world whose listing yields one candidate link whose page
fails to parse (no title). -/
def envParse : CrawlEnv :=
  { config := demoConfig,
    listingOutcome := fun _ => Except.ok ("LISTING"),
    articleOutcome := fun _ _ => Except.ok ("PAGE"),
    anchorsOf := fun _ => [some ("https://example.com/read/article-one")],
    docOf := fun _ => docNoTitle,
    isDup := fun _ => false,
    insertResult := fun _ => Except.ok (),
    hashFn := fun s => s }

/-- A crawl world whose listing fetch succeeds but yields no links. -/
def envEmpty : CrawlEnv :=
  { config := demoConfig,
    listingOutcome := fun _ => Except.ok ("LISTING"),
    articleOutcome := fun _ _ => Except.ok ("PAGE"),
    anchorsOf := fun _ => [],
    docOf := fun _ => docNoTitle,
    isDup := fun _ => false,
    insertResult := fun _ => Except.ok (),
    hashFn := fun s => s }

/-- A crawl world whose listing yields 16 distinct candidate links, one
more than the per-portal cap; every page parses. -/
def envMany : CrawlEnv :=
  { config := demoConfig,
    listingOutcome := fun _ => Except.ok ("LISTING"),
    articleOutcome := fun _ _ => Except.ok ("PAGE"),
    anchorsOf := fun _ =>
      (List.range 16).map (fun i => some ("https://example.com/read/a" ++ toString i)),
    docOf := fun _ => docWithTitle,
    isDup := fun _ => false,
    insertResult := fun _ => Except.ok (),
    hashFn := fun s => s }

/-- A crawl world whose listing fetch dies with a network error. -/
def envListingFail : CrawlEnv :=
  { config := demoConfig,
    listingOutcome := fun _ => Except.error (FetchFailure.networkError ("connection refused")),
    articleOutcome := fun _ _ => Except.ok ("PAGE"),
    anchorsOf := fun _ => [some ("https://example.com/read/article-one")],
    docOf := fun _ => docWithTitle,
    isDup := fun _ => false,
    insertResult := fun _ => Except.ok (),
    hashFn := fun s => s }

example : (crawlPortal envParse).1.errors = [] := by decide
example : (crawlPortal envParse).1.success = true := by decide
example : (crawlPortal envParse).1.articlesFound = 1 := by decide
example : (crawlPortal envEmpty).1 =
    { portal := "Demo", success := true, articlesFound := 0, articlesCrawled := 0,
      newArticles := 0, errors := [], durationMs := 0 } := by decide
example : (crawlPortal envListingFail).1.success = false := by decide
example : (crawlAllPortals [envListingFail, envParse]).successfulPortals = 1 := by
  simp only [crawlAllPortals, chunkArray, MAX_CONCURRENT_PORTALS,
    List.take_succ_cons, List.take_nil, List.drop_succ_cons, List.drop_nil]
  decide

/-! ## Helper lemmas: fetcher -/

/-- A terminal failure at the current attempt stops the loop at once. -/
lemma fetchGo_terminal (outcome : Nat → Except FetchFailure String)
    (delayMs attempt remaining : Nat) (e : FetchFailure)
    (hout : outcome attempt = Except.error e) (hterm : isTerminalFailure e = true) :
    fetchGo outcome delayMs attempt remaining = (Except.error e, attempt + 1, []) := by
  cases remaining with
  | zero => simp [fetchGo, hout]
  | succ n => simp [fetchGo, hout, hterm]

/-- When every attempt in range fails retryably, the loop performs them
all, sleeps `delayMs * attemptNumber` between consecutive attempts, and
surfaces the last attempt's result. -/
lemma fetchGo_all_retryable (outcome : Nat → Except FetchFailure String)
    (delayMs : Nat) :
    ∀ (remaining attempt : Nat),
      (∀ i, attempt ≤ i → i ≤ attempt + remaining → retryableAttempt outcome i = true) →
      fetchGo outcome delayMs attempt remaining
        = (outcome (attempt + remaining), attempt + remaining + 1,
           (List.range remaining).map (fun j => delayMs * (attempt + j + 1))) := by
  intro remaining
  induction remaining with
  | zero => intro attempt _; simp [fetchGo]
  | succ n ih =>
    intro attempt h
    have h0 := h attempt (Nat.le_refl _) (by omega)
    unfold retryableAttempt at h0
    cases hout : outcome attempt with
    | ok b => rw [hout] at h0; simp at h0
    | error e =>
      rw [hout] at h0
      simp only [Bool.not_eq_true'] at h0
      have hrec := ih (attempt + 1) (fun i h1 h2 => h i (by omega) (by omega))
      simp only [fetchGo, hout, h0, Bool.false_eq_true, if_false, hrec, Prod.mk.injEq,
        List.range_succ_eq_map, List.map_cons, List.map_map, List.cons.injEq]
      refine ⟨by congr 1; omega, by omega, trivial, ?_⟩
      apply List.map_congr_left
      intro j _
      simp only [Function.comp_apply]
      congr 1
      omega

/-! ## Claim theorems: C1, C2 -/

/-- C1 (amended): for any collision-free hash, two inputs whose
normalized title and truncated normalized body sample agree produce the
same fingerprint — in particular
fingerprint("Bank  BCA", "Profit up.") = fingerprint("bank bca", "Profit up.")
— and two inputs whose combined dedup keys (normalized title, pipe
separator, 500-character body sample) differ produce different
fingerprints — in particular fingerprint("Bank BCA", "Profit up.") ≠
fingerprint("Bank BCA", "Profit down.").  The only quote unification the
normalization performs is the straight single quote becoming a straight
double quote, shown by the last conjunct; curly variants are left alone
(see the counterexample). -/
theorem C1_fingerprint_stability (hasher : String → String)
    (hinj : Function.Injective hasher) :
    (∀ t1 c1 t2 c2, normalizeText t1 = normalizeText t2 →
       contentSampleOf c1 = contentSampleOf c2 →
       generateContentHash hasher t1 c1 = generateContentHash hasher t2 c2)
    ∧ generateContentHash hasher ("Bank  BCA") (some ("Profit up."))
        = generateContentHash hasher ("bank bca") (some ("Profit up."))
    ∧ (∀ t1 c1 t2 c2, contentKey t1 c1 ≠ contentKey t2 c2 →
       generateContentHash hasher t1 c1 ≠ generateContentHash hasher t2 c2)
    ∧ generateContentHash hasher ("Bank BCA") (some ("Profit up."))
        ≠ generateContentHash hasher ("Bank BCA") (some ("Profit down."))
    ∧ generateContentHash hasher (String.mk ['d', 'o', 'n', Char.ofNat 39, 't']) none
        = generateContentHash hasher (String.mk ['d', 'o', 'n', Char.ofNat 34, 't']) none := by
  refine ⟨?_, ?_, ?_, ?_, ?_⟩
  · intro t1 c1 t2 c2 ht hc
    unfold generateContentHash contentKey
    rw [ht, hc]
  · exact congrArg hasher (by decide)
  · intro t1 c1 t2 c2 hne h
    exact hne (hinj h)
  · intro h
    exact absurd (hinj h) (by decide)
  · exact congrArg hasher (by decide)

/-- C1 (counterexample to the claim as stated).  First: a title
containing the pipe separator collides with a shifted (title, body)
pair — the normalized titles differ and the normalized body samples
differ, yet the combined keys coincide, so the fingerprints are equal
whatever hash function the host supplies (shown for the identity hash).
Second: normalization does not unify curly and straight quote variants —
a title with a curly right quote (U+2019) and the same title with a
straight apostrophe normalize differently and fingerprint differently
under an injective hash, against the claimed quote-insensitivity. -/
theorem C1_counterexample :
    normalizeText ("x|y") ≠ normalizeText ("x")
    ∧ contentSampleOf (some ("z")) ≠ contentSampleOf (some ("y|z"))
    ∧ generateContentHash (fun s => s) ("x|y") (some ("z"))
        = generateContentHash (fun s => s) ("x") (some ("y|z"))
    ∧ normalizeText (String.mk ['i', 't', Char.ofNat 8217, 's'])
        ≠ normalizeText (String.mk ['i', 't', Char.ofNat 39, 's'])
    ∧ generateContentHash (fun s => s) (String.mk ['i', 't', Char.ofNat 8217, 's']) none
        ≠ generateContentHash (fun s => s) (String.mk ['i', 't', Char.ofNat 39, 's']) none := by
  decide

/-- C1 witness: the amended theorem instantiated at the identity hash,
which is injective. -/
theorem C1_witness :
    generateContentHash (fun s => s) ("Bank  BCA") (some ("Profit up."))
      = generateContentHash (fun s => s) ("bank bca") (some ("Profit up."))
    ∧ generateContentHash (fun s => s) ("Bank BCA") (some ("Profit up."))
      ≠ generateContentHash (fun s => s) ("Bank BCA") (some ("Profit down.")) :=
  ⟨(C1_fingerprint_stability (fun s => s) (fun _ _ h => h)).2.1,
   (C1_fingerprint_stability (fun s => s) (fun _ _ h => h)).2.2.2.1⟩

/-- C2: a 4xx response other than 429 on the first attempt is never
retried — one attempt, the failure propagated immediately; when every
allowed attempt fails retryably (timeout, network error, 429, 5xx) the
loop performs all `retries + 1` attempts, sleeps
`retryDelayMs * attemptNumber` (attempt numbers from 1, strictly
increasing) between attempts, and surfaces the last failure; timeouts,
network errors, 429 and 5xx are all classified retryable. -/
theorem C2_retry_policy (outcome : Nat → Except FetchFailure String)
    (retries delayMs : Nat) :
    (∀ s, outcome 0 = Except.error (FetchFailure.httpError s) →
       400 ≤ s → s < 500 → s ≠ 429 →
       fetchWithRetry outcome retries delayMs
         = (Except.error (FetchFailure.httpError s), 1, []))
    ∧ ((∀ i, i < retries + 1 → retryableAttempt outcome i = true) →
       fetchWithRetry outcome retries delayMs
         = (outcome retries, retries + 1,
            (List.range retries).map (fun j => delayMs * (j + 1))))
    ∧ ((∀ i, i < retries + 1 → retryableAttempt outcome i = true) → 0 < delayMs →
       List.Pairwise (· < ·) (fetchWithRetry outcome retries delayMs).2.2)
    ∧ isTerminalFailure (FetchFailure.timeout) = false
    ∧ (∀ m, isTerminalFailure (FetchFailure.networkError m) = false)
    ∧ (∀ s, s = 429 ∨ 500 ≤ s → isTerminalFailure (FetchFailure.httpError s) = false) := by
  have hall : (∀ i, i < retries + 1 → retryableAttempt outcome i = true) →
      fetchWithRetry outcome retries delayMs
        = (outcome retries, retries + 1,
           (List.range retries).map (fun j => delayMs * (j + 1))) := by
    intro h
    unfold fetchWithRetry
    have := fetchGo_all_retryable outcome delayMs retries 0
      (fun i h1 h2 => h i (by omega))
    simpa using this
  refine ⟨?_, hall, ?_, rfl, fun m => rfl, ?_⟩
  · intro s hout h1 h2 h3
    unfold fetchWithRetry
    apply fetchGo_terminal outcome delayMs 0 retries _ hout
    simp [isTerminalFailure, h1, h2, h3]
  · intro h hd
    rw [hall h]
    rw [List.pairwise_map]
    exact (List.pairwise_lt_range retries).imp
      (fun hab => mul_lt_mul_of_pos_left (by omega) hd)
  · intro s hs
    rcases hs with h | h
    · subst h; decide
    · have hc : ¬(400 ≤ s ∧ s < 500 ∧ s ≠ 429) := by omega
      simp [isTerminalFailure, hc]

/-- C2 witness: a constant-404 transport is attempted exactly once; a
constant-503 transport under the default options is attempted three
times with sleeps of 1000 ms and 2000 ms. -/
theorem C2_witness :
    fetchWithRetry (fun _ => Except.error (FetchFailure.httpError 404)) 2 1000
      = (Except.error (FetchFailure.httpError 404), 1, [])
    ∧ (fetchWithRetry (fun _ => Except.error (FetchFailure.httpError 503)) 2 1000).2
      = (3, [1000, 2000]) := by
  constructor
  · exact (C2_retry_policy (fun _ => Except.error (FetchFailure.httpError 404)) 2 1000).1
      404 rfl (by omega) (by omega) (by omega)
  · have h := (C2_retry_policy (fun _ => Except.error (FetchFailure.httpError 503)) 2 1000).2.1
      (by decide)
    rw [h]
    decide

/-! ## Claim theorem: C4 -/

/-- C4: `waitForDomain` records the (post-sleep) current time as the
domain's last dispatch; a call that finds a recorded prior time `t` only
returns once the clock is at least `t + delay`, so two consecutive calls
for the same domain record dispatch times at least `delay` apart; a call
with no recorded prior request does not sleep (for any realistic clock
value, i.e. `delay ≤ now`); other domains' records are untouched, and
the sleep performed depends only on the clock and the caller's own
domain record. -/
theorem C4_rate_limiter (s : RLState) (domain : String) (delay : Nat) :
    assocLookup domain (waitForDomain s domain delay).1.lastRequestTime
      = some (waitForDomain s domain delay).1.now
    ∧ (∀ t, assocLookup domain s.lastRequestTime = some t → t ≤ s.now →
        t + delay ≤ (waitForDomain s domain delay).1.now)
    ∧ (waitForDomain s domain delay).1.now + delay
        ≤ (waitForDomain (waitForDomain s domain delay).1 domain delay).1.now
    ∧ (assocLookup domain s.lastRequestTime = none → delay ≤ s.now →
        (waitForDomain s domain delay).2 = 0)
    ∧ (∀ d, d ≠ domain →
        assocLookup d (waitForDomain s domain delay).1.lastRequestTime
          = assocLookup d s.lastRequestTime)
    ∧ (∀ s2 : RLState, s2.now = s.now →
        assocLookup domain s2.lastRequestTime = assocLookup domain s.lastRequestTime →
        (waitForDomain s2 domain delay).2 = (waitForDomain s domain delay).2) := by
  refine ⟨?_, ?_, ?_, ?_, ?_, ?_⟩
  · simp [waitForDomain, assocLookup]
  · intro t ht hle
    simp only [waitForDomain, ht, Option.getD_some]
    split <;> omega
  · simp [waitForDomain, assocLookup]
    repeat' split
    all_goals omega
  · intro hnone hle
    simp only [waitForDomain, hnone, Option.getD_none]
    split <;> omega
  · intro d hd
    have hne : domain ≠ d := fun hcontra => hd hcontra.symm
    simp [waitForDomain, assocLookup, hne]
  · intro s2 hnow hlook
    simp only [waitForDomain, hnow, hlook]

/-- C4 witness: with a dispatch recorded at 100 and the clock at 110, a
50 ms spacing call releases no earlier than 150; with no record and the
clock at 5000, a 1500 ms spacing call does not sleep. -/
theorem C4_witness :
    100 + 50 ≤ (waitForDomain { lastRequestTime := [("example.com", 100)], now := 110 }
      ("example.com") 50).1.now
    ∧ (waitForDomain { lastRequestTime := [], now := 5000 } ("example.com") 1500).2 = 0 :=
  ⟨(C4_rate_limiter { lastRequestTime := [("example.com", 100)], now := 110 }
      ("example.com") 50).2.1 100 (by decide) (by decide),
   (C4_rate_limiter { lastRequestTime := [], now := 5000 } ("example.com") 1500).2.2.2.1
      (by decide) (by decide)⟩

/-! ## Helper lemmas: listing links -/

/-- Nothing ever extracted was already in the de-duplication set. -/
lemma linksLoop_not_mem_seen (config : NewsPortalConfig) :
    ∀ (anchors : List (Option String)) (seen : List String) (x : String),
      x ∈ linksLoop config anchors seen → x ∉ seen := by
  intro anchors
  induction anchors with
  | nil => intro seen x hx; simp [linksLoop] at hx
  | cons a rest ih =>
    intro seen x hx
    cases a with
    | none => exact ih seen x hx
    | some href =>
      rw [linksLoop] at hx
      split at hx
      · exact ih seen x hx
      · rename_i fullUrl hres
        split at hx
        · exact ih seen x hx
        · rename_i hseen
          split at hx
          · rcases List.mem_cons.mp hx with h | h
            · subst h; exact hseen
            · intro hxs
              exact ih (fullUrl :: seen) x h (List.mem_cons_of_mem _ hxs)
          · exact ih seen x hx

/-- The extracted link list has no duplicates. -/
lemma linksLoop_nodup (config : NewsPortalConfig) :
    ∀ (anchors : List (Option String)) (seen : List String),
      (linksLoop config anchors seen).Nodup := by
  intro anchors
  induction anchors with
  | nil => intro seen; simp [linksLoop]
  | cons a rest ih =>
    intro seen
    cases a with
    | none => exact ih seen
    | some href =>
      rw [linksLoop]
      split
      · exact ih seen
      · rename_i fullUrl hres
        split
        · exact ih seen
        · split
          · refine List.nodup_cons.mpr ⟨fun hmem => ?_, ih (fullUrl :: seen)⟩
            exact linksLoop_not_mem_seen config rest (fullUrl :: seen) fullUrl hmem
              (List.mem_cons_self _ _)
          · exact ih seen

/-- Every extracted link passes the article-URL filter. -/
lemma linksLoop_valid (config : NewsPortalConfig) :
    ∀ (anchors : List (Option String)) (seen : List String) (x : String),
      x ∈ linksLoop config anchors seen → isValidArticleUrl x config = true := by
  intro anchors
  induction anchors with
  | nil => intro seen x hx; simp [linksLoop] at hx
  | cons a rest ih =>
    intro seen x hx
    cases a with
    | none => exact ih seen x hx
    | some href =>
      rw [linksLoop] at hx
      split at hx
      · exact ih seen x hx
      · rename_i fullUrl hres
        split at hx
        · exact ih seen x hx
        · split at hx
          · rename_i hvalid
            rcases List.mem_cons.mp hx with h | h
            · subst h; exact hvalid
            · exact ih (fullUrl :: seen) x h
          · exact ih seen x hx

/-- The extracted links are a subsequence of the resolved candidates, so
they appear in document order. -/
lemma linksLoop_sublist (config : NewsPortalConfig) :
    ∀ (anchors : List (Option String)) (seen : List String),
      List.Sublist (linksLoop config anchors seen) (resolvedCandidates anchors config) := by
  intro anchors
  induction anchors with
  | nil => intro seen; simp [linksLoop, resolvedCandidates]
  | cons a rest ih =>
    intro seen
    cases a with
    | none =>
      have hcand : resolvedCandidates (none :: rest) config
          = resolvedCandidates rest config := by
        simp [resolvedCandidates, List.filterMap_cons]
      rw [hcand]
      exact ih seen
    | some href =>
      rw [linksLoop]
      split
      · rename_i hres
        have hcand : resolvedCandidates (some href :: rest) config
            = resolvedCandidates rest config := by
          simp [resolvedCandidates, List.filterMap_cons, hres]
        rw [hcand]
        exact ih seen
      · rename_i fullUrl hres
        have hcand : resolvedCandidates (some href :: rest) config
            = fullUrl :: resolvedCandidates rest config := by
          simp [resolvedCandidates, List.filterMap_cons, hres]
        rw [hcand]
        split
        · exact (ih seen).cons _
        · split
          · exact (ih (fullUrl :: seen)).cons₂ _
          · exact (ih seen).cons _

/-! ## Claim theorem: C5 -/

/-- C5: `parseArticleLinks` returns a duplicate-free list of URLs that is
a subsequence of the per-anchor resolved hrefs in document order, every
returned URL passes the non-article-pattern and host filter
`isValidArticleUrl`, and an href that is already absolute (starts with
`http`) is passed through resolution unchanged. -/
theorem C5_extract_links (anchors : List (Option String)) (config : NewsPortalConfig) :
    (parseArticleLinks anchors config).Nodup
    ∧ (∀ u ∈ parseArticleLinks anchors config, isValidArticleUrl u config = true)
    ∧ List.Sublist (parseArticleLinks anchors config) (resolvedCandidates anchors config)
    ∧ (∀ href, jsStartsWith href ("http") = true →
        resolveUrl href config.baseUrl = some href) := by
  refine ⟨linksLoop_nodup config anchors [],
    fun u hu => linksLoop_valid config anchors [] u hu,
    linksLoop_sublist config anchors [], fun href h => ?_⟩
  unfold resolveUrl
  rw [if_pos h]

/-- C5 witness: on a listing with an article link, tag/category links, a
fragment link and a repeated link, extraction keeps exactly the one valid
URL, duplicate-free and passing the filter. -/
theorem C5_witness :
    (parseArticleLinks
      [some ("/read/123"), some ("/tag/finance"), some ("/category/x"),
       some ("#top"), some ("/read/123"), none] demoConfig).Nodup
    ∧ isValidArticleUrl ("https://example.com/read/123") demoConfig = true :=
  ⟨(C5_extract_links
      [some ("/read/123"), some ("/tag/finance"), some ("/category/x"),
       some ("#top"), some ("/read/123"), none] demoConfig).1,
   (C5_extract_links
      [some ("/read/123"), some ("/tag/finance"), some ("/category/x"),
       some ("#top"), some ("/read/123"), none] demoConfig).2.1
      ("https://example.com/read/123") (by decide)⟩

/-! ## Helper lemmas: article parsing -/

/-- A title selector qualifies when its rendered trimmed text is non-empty
and longer than 10 characters. -/
def titleQualifies (doc : Doc) (sel : String) : Prop :=
  jsTrim (doc.selText sel) ≠ "" ∧ 10 < (jsTrim (doc.selText sel)).length

instance (doc : Doc) (sel : String) : Decidable (titleQualifies doc sel) := by
  unfold titleQualifies; infer_instance

/-- The fallback loop fails exactly when no selector qualifies. -/
lemma extractTitleGo_eq_none_iff (doc : Doc) :
    ∀ sels : List String,
      (extractTitleGo doc sels = none ↔ ∀ sel ∈ sels, ¬ titleQualifies doc sel) := by
  intro sels
  induction sels with
  | nil => simp [extractTitleGo]
  | cons sel rest ih =>
    rw [extractTitleGo]
    by_cases hq : titleQualifies doc sel
    · rw [if_pos ⟨hq.1, hq.2⟩]
      simp only [List.mem_cons]
      constructor
      · intro h; exact absurd h (by simp)
      · intro h; exact absurd hq (h sel (Or.inl rfl))
    · rw [if_neg (fun hc => hq ⟨hc.1, hc.2⟩)]
      rw [ih]
      constructor
      · intro h s hs
        rcases List.mem_cons.mp hs with h1 | h1
        · subst h1; exact hq
        · exact h s h1
      · intro h s hs; exact h s (List.mem_cons_of_mem _ hs)

/-- A successful fallback returns the cleaned text of the first
qualifying selector. -/
lemma extractTitleGo_eq_some (doc : Doc) :
    ∀ (sels : List String) (t : String), extractTitleGo doc sels = some t →
      ∃ pre sel post, sels = pre ++ sel :: post
        ∧ (∀ s ∈ pre, ¬ titleQualifies doc s)
        ∧ titleQualifies doc sel
        ∧ t = cleanText (jsTrim (doc.selText sel)) := by
  intro sels
  induction sels with
  | nil => intro t ht; simp [extractTitleGo] at ht
  | cons sel rest ih =>
    intro t ht
    rw [extractTitleGo] at ht
    by_cases hq : titleQualifies doc sel
    · rw [if_pos ⟨hq.1, hq.2⟩] at ht
      exact ⟨[], sel, rest, rfl, by simp, hq, (Option.some_injective _ ht).symm⟩
    · rw [if_neg (fun hc => hq ⟨hc.1, hc.2⟩)] at ht
      obtain ⟨pre, s0, post, heq, hpre, hq0, ht0⟩ := ih t ht
      refine ⟨sel :: pre, s0, post, by rw [heq]; rfl, ?_, hq0, ht0⟩
      intro s hs
      rcases List.mem_cons.mp hs with h1 | h1
      · subst h1; exact hq
      · exact hpre s h1

/-! ## Claim theorem: C6 -/

/-- C6: `parseArticle` fails exactly when no selector in the title
fallback list renders non-empty text longer than 10 characters; on
success the title is the first qualifying selector's cleaned text, and
the content and published-at fields carry whatever the (possibly null)
body and timestamp extractors produce — a missing body or unparseable
timestamp never fails the parse. -/
theorem C6_parse_article (doc : Doc) (url : String) (config : NewsPortalConfig) :
    (parseArticle doc url config = none ↔
      ∀ sel ∈ selectorList config.titleSelector, ¬ titleQualifies doc sel)
    ∧ (∀ a, parseArticle doc url config = some a →
        (∃ pre sel post, selectorList config.titleSelector = pre ++ sel :: post
          ∧ (∀ s ∈ pre, ¬ titleQualifies doc s)
          ∧ titleQualifies doc sel
          ∧ a.title = cleanText (jsTrim (doc.selText sel)))
        ∧ a.content = extractContent doc config.contentSelector
        ∧ a.publishedAt = extractDate doc config.dateSelector
        ∧ a.url = url ∧ a.portal = config.name) := by
  constructor
  · rw [← extractTitleGo_eq_none_iff doc (selectorList config.titleSelector)]
    unfold parseArticle extractTitle
    cases h : extractTitleGo doc (selectorList config.titleSelector) with
    | none => simp
    | some t => simp
  · intro a ha
    unfold parseArticle extractTitle at ha
    cases h : extractTitleGo doc (selectorList config.titleSelector) with
    | none => rw [h] at ha; exact absurd ha (by simp)
    | some t =>
      rw [h] at ha
      have hrec := Option.some_injective _ ha
      obtain ⟨pre, sel, post, heq, hpre, hq, ht⟩ :=
        extractTitleGo_eq_some doc (selectorList config.titleSelector) t h
      subst hrec
      exact ⟨⟨pre, sel, post, heq, hpre, hq, ht⟩, rfl, rfl, rfl, rfl⟩

/-- C6 witness: a document whose selectors render nothing parses to
nothing. -/
theorem C6_witness :
    parseArticle docNoTitle ("https://example.com/read/x") demoConfig = none :=
  (C6_parse_article docNoTitle ("https://example.com/read/x") demoConfig).1.mpr
    (by decide)

/-! ## Helper lemmas: orchestrator -/

/-- Every branch of the article loop body records the visited URL. -/
lemma processArticle_visited (env : CrawlEnv) (st : LoopState) (url : String) :
    (processArticle env st url).visited = st.visited ++ [url] := by
  simp only [processArticle]
  repeat' split
  all_goals rfl

/-- The loop visits exactly the URLs it is given, in order. -/
lemma foldl_processArticle_visited (env : CrawlEnv) :
    ∀ (urls : List String) (st : LoopState),
      (urls.foldl (processArticle env) st).visited = st.visited ++ urls := by
  intro urls
  induction urls with
  | nil => intro st; simp
  | cons u rest ih =>
    intro st
    rw [List.foldl_cons, ih, processArticle_visited]
    simp

/-- One loop iteration keeps the new-article count below the crawled
count. -/
lemma processArticle_new_le_crawled (env : CrawlEnv) (st : LoopState) (url : String)
    (h : st.newArticles ≤ st.articlesCrawled) :
    (processArticle env st url).newArticles ≤ (processArticle env st url).articlesCrawled := by
  simp only [processArticle]
  repeat' split
  all_goals first
  | exact h
  | exact Nat.succ_le_succ h
  | exact Nat.le_succ_of_le h

/-- One loop iteration raises the crawled count by at most one. -/
lemma processArticle_crawled_le (env : CrawlEnv) (st : LoopState) (url : String) :
    (processArticle env st url).articlesCrawled ≤ st.articlesCrawled + 1 := by
  simp only [processArticle]
  repeat' split
  all_goals first
  | exact Nat.le_succ _
  | exact Nat.le_refl _

/-- One loop iteration keeps the new-article count equal to the number of
stored articles. -/
lemma processArticle_saved_len (env : CrawlEnv) (st : LoopState) (url : String)
    (h : st.newArticles = st.saved.length) :
    (processArticle env st url).newArticles = (processArticle env st url).saved.length := by
  simp only [processArticle]
  repeat' split
  all_goals first
  | exact h
  | simp [h]

/-- A freshly stored article passed the duplicate check. -/
lemma processArticle_saved_mem (env : CrawlEnv) (st : LoopState) (url : String)
    (a : RawArticle) (ha : a ∈ (processArticle env st url).saved) :
    a ∈ st.saved
    ∨ env.isDup (generateContentHash env.hashFn a.title a.content) = false := by
  simp only [processArticle] at ha
  split at ha
  · exact Or.inl ha
  · split at ha
    · exact Or.inl ha
    · split at ha
      · exact Or.inl ha
      · split at ha
        · exact Or.inl ha
        · next hdup =>
          split at ha
          · rcases List.mem_append.mp ha with h | h
            · exact Or.inl h
            · have haeq := List.mem_singleton.mp h
              subst haeq
              exact Or.inr (Bool.eq_false_iff.mpr hdup)
          · exact Or.inl ha

/-- Loop-level form of `processArticle_new_le_crawled`. -/
lemma foldl_new_le_crawled (env : CrawlEnv) :
    ∀ (urls : List String) (st : LoopState), st.newArticles ≤ st.articlesCrawled →
      (urls.foldl (processArticle env) st).newArticles
        ≤ (urls.foldl (processArticle env) st).articlesCrawled := by
  intro urls
  induction urls with
  | nil => intro st h; simpa using h
  | cons u rest ih =>
    intro st h
    rw [List.foldl_cons]
    exact ih _ (processArticle_new_le_crawled env st u h)

/-- The loop crawls at most one article per URL given to it. -/
lemma foldl_crawled_le (env : CrawlEnv) :
    ∀ (urls : List String) (st : LoopState),
      (urls.foldl (processArticle env) st).articlesCrawled
        ≤ st.articlesCrawled + urls.length := by
  intro urls
  induction urls with
  | nil => intro st; simp
  | cons u rest ih =>
    intro st
    rw [List.foldl_cons]
    have h1 := ih (processArticle env st u)
    have h2 := processArticle_crawled_le env st u
    simp only [List.length_cons]
    omega

/-- Loop-level form of `processArticle_saved_len`. -/
lemma foldl_saved_len (env : CrawlEnv) :
    ∀ (urls : List String) (st : LoopState), st.newArticles = st.saved.length →
      (urls.foldl (processArticle env) st).newArticles
        = (urls.foldl (processArticle env) st).saved.length := by
  intro urls
  induction urls with
  | nil => intro st h; simpa using h
  | cons u rest ih =>
    intro st h
    rw [List.foldl_cons]
    exact ih _ (processArticle_saved_len env st u h)

/-- Loop-level form of `processArticle_saved_mem`. -/
lemma foldl_saved_mem (env : CrawlEnv) :
    ∀ (urls : List String) (st : LoopState) (a : RawArticle),
      a ∈ (urls.foldl (processArticle env) st).saved →
      a ∈ st.saved
      ∨ env.isDup (generateContentHash env.hashFn a.title a.content) = false := by
  intro urls
  induction urls with
  | nil => intro st a ha; exact Or.inl ha
  | cons u rest ih =>
    intro st a ha
    rw [List.foldl_cons] at ha
    rcases ih (processArticle env st u) a ha with h | h
    · exact processArticle_saved_mem env st u a h
    · exact Or.inr h

/-- Batching and flattening is the identity on the source list. -/
lemma chunkArray_flatten_aux (size : Nat) (_hsize : 0 < size) :
    ∀ (n : Nat) (l : List CrawlEnv), l.length ≤ n → (chunkArray size l).flatten = l := by
  intro n
  induction n with
  | zero =>
    intro l hl
    have h0 : l = [] := List.eq_nil_of_length_eq_zero (Nat.le_zero.mp hl)
    subst h0
    simp [chunkArray]
  | succ n ih =>
    intro l hl
    cases l with
    | nil => simp [chunkArray]
    | cons x xs =>
      rw [chunkArray]
      rw [List.flatten_cons]
      rw [ih (xs.drop (size - 1))
        (by simp only [List.length_drop]; simp only [List.length_cons] at hl; omega)]
      rw [List.cons_append, List.take_append_drop]

/-- The summary's result list is the per-source results in configuration
order: batching changes neither membership nor order. -/
lemma crawlAllPortals_results (envs : List CrawlEnv) :
    (crawlAllPortals envs).results = envs.map (fun e => (crawlPortal e).1) := by
  show ((chunkArray MAX_CONCURRENT_PORTALS envs).map
    (fun batch => batch.map (fun e => (crawlPortal e).1))).flatten
      = envs.map (fun e => (crawlPortal e).1)
  rw [← List.map_flatten]
  rw [chunkArray_flatten_aux MAX_CONCURRENT_PORTALS (by decide) envs.length envs
    (Nat.le_refl _)]

/-- A fold accumulating `f` over a list sums its mapped values. -/
lemma foldl_add_map (f : CrawlResult → Nat) :
    ∀ (l : List CrawlResult) (a : Nat),
      l.foldl (fun sum r => sum + f r) a = a + (l.map f).sum := by
  intro l
  induction l with
  | nil => intro a; simp
  | cons r rest ih =>
    intro a
    rw [List.foldl_cons, ih, List.map_cons, List.sum_cons]
    omega

/-! ## Claim theorems: C3, C7, C8, C9, C10 -/

/-- C3: `crawlAllPortals` is a total function of the per-source crawl
worlds — it always produces a summary, and each source's result is
computed from that source's world alone, so one source's failure cannot
disturb another's result; the summary counts every configured source,
its success and failure counts partition the sources, and its totals are
the sums of the per-source found and new counts. -/
theorem C3_crawl_all_aggregates (envs : List CrawlEnv) :
    (crawlAllPortals envs).totalPortals = envs.length
    ∧ (crawlAllPortals envs).successfulPortals + (crawlAllPortals envs).failedPortals
        = (crawlAllPortals envs).totalPortals
    ∧ (crawlAllPortals envs).totalArticlesFound
        = ((crawlAllPortals envs).results.map (fun r => r.articlesFound)).sum
    ∧ (crawlAllPortals envs).totalNewArticles
        = ((crawlAllPortals envs).results.map (fun r => r.newArticles)).sum
    ∧ (crawlAllPortals envs).results = envs.map (fun e => (crawlPortal e).1) := by
  have hres := crawlAllPortals_results envs
  have hsucc : (crawlAllPortals envs).successfulPortals
      = ((crawlAllPortals envs).results.filter (fun r => r.success)).length := rfl
  have hfail : (crawlAllPortals envs).failedPortals
      = envs.length - (crawlAllPortals envs).successfulPortals := rfl
  have hlen : (crawlAllPortals envs).results.length = envs.length := by
    rw [hres, List.length_map]
  have hle : (crawlAllPortals envs).successfulPortals ≤ envs.length := by
    rw [hsucc, ← hlen]
    exact List.length_filter_le _ _
  have hfound : (crawlAllPortals envs).totalArticlesFound
      = (crawlAllPortals envs).results.foldl (fun sum r => sum + r.articlesFound) 0 := rfl
  have hnew : (crawlAllPortals envs).totalNewArticles
      = (crawlAllPortals envs).results.foldl (fun sum r => sum + r.newArticles) 0 := rfl
  have htot : (crawlAllPortals envs).totalPortals = envs.length := rfl
  refine ⟨rfl, by omega, ?_, ?_, hres⟩
  · rw [hfound, foldl_add_map]; simp
  · rw [hnew, foldl_add_map]; simp

/-- C7 (amended): a candidate link
whose page parses to no document is skipped silently — the loop state is
unchanged except for the visit record, so no error entry is produced —
and processing continues; a parse failure can never flip a source's
success flag, which only reflects the listing fetch. -/
theorem C7_parse_failure_skipped (env : CrawlEnv) (st : LoopState) (url html : String)
    (hfetch : (fetchWithRetry (env.articleOutcome url) DEFAULT_RETRIES
      DEFAULT_RETRY_DELAY_MS).1 = Except.ok html)
    (hparse : parseArticle (env.docOf html) url env.config = none) :
    processArticle env st url = { st with visited := st.visited ++ [url] }
    ∧ (∀ (env2 : CrawlEnv) (html2 : String),
        (fetchWithRetry env2.listingOutcome DEFAULT_RETRIES DEFAULT_RETRY_DELAY_MS).1
          = Except.ok html2 →
        (crawlPortal env2).1.success = true) := by
  constructor
  · simp [processArticle, hfetch, hparse]
  · intro env2 html2 h2
    simp [crawlPortal, h2]

/-- C7 (counterexample to the claim as stated): in a crawl world whose
single candidate link fetches but fails to parse, the finished
CrawlResult records no error at all — the parse failure is not captured
in the errors list. -/
theorem C7_counterexample :
    parseArticle (envParse.docOf ("PAGE")) ("https://example.com/read/article-one")
      envParse.config = none
    ∧ (crawlPortal envParse).1.articlesFound = 1
    ∧ (crawlPortal envParse).1.errors = []
    ∧ (crawlPortal envParse).1.success = true := by decide

/-- C7 witness: the amended theorem instantiated in the concrete
parse-failure world. -/
theorem C7_witness :
    (processArticle envParse initialLoopState
      ("https://example.com/read/article-one")).errors = []
    ∧ (crawlPortal envParse).1.success = true := by
  have h := C7_parse_failure_skipped envParse initialLoopState
    ("https://example.com/read/article-one") ("PAGE") rfl (by decide)
  exact ⟨by rw [h.1]; rfl, h.2 envParse ("LISTING") rfl⟩

/-- C8 (amended): a listing that
fetches but yields zero links is not treated as an error by
`crawlPortal` — the portal finishes successfully with zero counts and an
empty error list, processing nothing (the zero-links condition is only
reported as an error by the separate portal health-check test). -/
theorem C8_zero_links (env : CrawlEnv) (html : String)
    (hfetch : (fetchWithRetry env.listingOutcome DEFAULT_RETRIES
      DEFAULT_RETRY_DELAY_MS).1 = Except.ok html)
    (hempty : parseArticleLinks (env.anchorsOf html) env.config = []) :
    (crawlPortal env).1
      = { portal := env.config.name, success := true, articlesFound := 0,
          articlesCrawled := 0, newArticles := 0, errors := [], durationMs := 0 } := by
  simp [crawlPortal, hfetch, hempty, initialLoopState]

/-- C8 (counterexample to the claim as stated): with a successful listing
fetch and zero extracted links, the CrawlResult records no error — the
errors list is empty and the source is reported successful. -/
theorem C8_counterexample :
    parseArticleLinks (envEmpty.anchorsOf ("LISTING")) envEmpty.config = []
    ∧ (crawlPortal envEmpty).1.success = true
    ∧ (crawlPortal envEmpty).1.errors = []
    ∧ (crawlPortal envEmpty).1.articlesFound = 0 := by decide

/-- C8 witness: the amended theorem instantiated in the concrete
zero-links world. -/
theorem C8_witness :
    (crawlPortal envEmpty).1
      = { portal := "Demo", success := true, articlesFound := 0,
          articlesCrawled := 0, newArticles := 0, errors := [], durationMs := 0 } := by
  have h := C8_zero_links envEmpty ("LISTING") rfl (by decide)
  rw [h]
  rfl

/-- C9: when the listing yields more links than
`MAX_ARTICLES_PER_PORTAL`, the loop visits exactly the first
`MAX_ARTICLES_PER_PORTAL` links in document order, none of the remaining
links is visited, and `articlesFound` still reports the full number of
links discovered. -/
theorem C9_per_portal_cap (env : CrawlEnv) (html : String)
    (hfetch : (fetchWithRetry env.listingOutcome DEFAULT_RETRIES
      DEFAULT_RETRY_DELAY_MS).1 = Except.ok html)
    (_hmany : MAX_ARTICLES_PER_PORTAL
      < (parseArticleLinks (env.anchorsOf html) env.config).length) :
    (crawlPortal env).2.visited
      = (parseArticleLinks (env.anchorsOf html) env.config).take MAX_ARTICLES_PER_PORTAL
    ∧ (∀ u ∈ (parseArticleLinks (env.anchorsOf html) env.config).drop
        MAX_ARTICLES_PER_PORTAL, u ∉ (crawlPortal env).2.visited)
    ∧ (crawlPortal env).1.articlesFound
        = (parseArticleLinks (env.anchorsOf html) env.config).length := by
  have hstate : (crawlPortal env).2
      = ((parseArticleLinks (env.anchorsOf html) env.config).take
          MAX_ARTICLES_PER_PORTAL).foldl (processArticle env) initialLoopState := by
    simp [crawlPortal, hfetch]
  have hvis : (crawlPortal env).2.visited
      = (parseArticleLinks (env.anchorsOf html) env.config).take
          MAX_ARTICLES_PER_PORTAL := by
    rw [hstate, foldl_processArticle_visited]
    simp [initialLoopState]
  refine ⟨hvis, ?_, by simp [crawlPortal, hfetch]⟩
  intro u hu hmem
  rw [hvis] at hmem
  have hnd : (parseArticleLinks (env.anchorsOf html) env.config).Nodup :=
    linksLoop_nodup env.config _ []
  rw [← List.take_append_drop MAX_ARTICLES_PER_PORTAL
    (parseArticleLinks (env.anchorsOf html) env.config)] at hnd
  exact (List.nodup_append.mp hnd).2.2 hmem hu

/-- C9 witness: with 16 extracted links, the full count is reported while
only 15 URLs are visited. -/
theorem C9_witness :
    (crawlPortal envMany).1.articlesFound = 16
    ∧ (crawlPortal envMany).2.visited.length = 15 := by
  have h := C9_per_portal_cap envMany ("LISTING") rfl (by decide)
  refine ⟨by rw [h.2.2]; decide, by rw [h.1]; decide⟩

/-- C10: every CrawlResult satisfies
newArticles ≤ articlesCrawled ≤ min articlesFound MAX_ARTICLES_PER_PORTAL
(so all counts are bounded by the capped link count), the new-article
count equals the number of articles handed to the store, and every
stored article had passed the duplicate check. -/
theorem C10_count_invariant (env : CrawlEnv) :
    (crawlPortal env).1.newArticles ≤ (crawlPortal env).1.articlesCrawled
    ∧ (crawlPortal env).1.articlesCrawled
        ≤ min (crawlPortal env).1.articlesFound MAX_ARTICLES_PER_PORTAL
    ∧ (crawlPortal env).1.newArticles = (crawlPortal env).2.saved.length
    ∧ (∀ a ∈ (crawlPortal env).2.saved,
        env.isDup (generateContentHash env.hashFn a.title a.content) = false) := by
  cases hf : (fetchWithRetry env.listingOutcome DEFAULT_RETRIES DEFAULT_RETRY_DELAY_MS).1 with
  | error e =>
    refine ⟨?_, ?_, ?_, ?_⟩ <;> simp [crawlPortal, hf, initialLoopState]
  | ok html =>
    have e2 : (crawlPortal env).2
        = ((parseArticleLinks (env.anchorsOf html) env.config).take
            MAX_ARTICLES_PER_PORTAL).foldl (processArticle env) initialLoopState := by
      simp [crawlPortal, hf]
    have e1new : (crawlPortal env).1.newArticles = (crawlPortal env).2.newArticles := by
      simp [crawlPortal, hf]
    have e1crawled : (crawlPortal env).1.articlesCrawled
        = (crawlPortal env).2.articlesCrawled := by
      simp [crawlPortal, hf]
    have e1found : (crawlPortal env).1.articlesFound
        = (parseArticleLinks (env.anchorsOf html) env.config).length := by
      simp [crawlPortal, hf]
    refine ⟨?_, ?_, ?_, ?_⟩
    · rw [e1new, e1crawled, e2]
      exact foldl_new_le_crawled env _ initialLoopState (Nat.le_refl 0)
    · rw [e1crawled, e1found, e2]
      have h1 := foldl_crawled_le env
        ((parseArticleLinks (env.anchorsOf html) env.config).take
          MAX_ARTICLES_PER_PORTAL) initialLoopState
      simp only [List.length_take] at h1
      have h2 : initialLoopState.articlesCrawled = 0 := rfl
      omega
    · rw [e1new, e2]
      exact foldl_saved_len env _ initialLoopState rfl
    · intro a ha
      rw [e2] at ha
      rcases foldl_saved_mem env _ initialLoopState a ha with h | h
      · simp [initialLoopState] at h
      · exact h

/-- C10 witness: the invariant instantiated in the 16-link world. -/
theorem C10_witness :
    (crawlPortal envMany).1.newArticles ≤ (crawlPortal envMany).1.articlesCrawled
    ∧ (crawlPortal envMany).1.articlesCrawled
        ≤ min (crawlPortal envMany).1.articlesFound MAX_ARTICLES_PER_PORTAL :=
  ⟨(C10_count_invariant envMany).1, (C10_count_invariant envMany).2.1⟩
